import Mathlib

/-!
Verification of the taggy CLI (`src/taggy/taggy_cli.py`).

The repository ships only the CLI glue (`taggy_cli.py`); the engine it calls
(`utils/image_tagger.py`: `ImageTagger.find_duplicates`, `group_duplicates`,
`search_images`, scoring) is absent from the sources, so those parts are
modelled from the specification (marked `Modelled from the spec:` below).
Image ids are natural numbers, similarities are exact rationals.
-/

namespace Taggy

/-- The loaded config (`defaults = load_config(config_file)`); `defaults.get k`
returns `none` when the key is missing. -/
def Config : Type := String → Option String

/-- Python `str.split(',')` on the underlying characters: cut at every comma,
never collapsing adjacent separators (`"".split(',') == [""]`). -/
def splitCommaChars (s : List Char) : List (List Char) :=
  s.foldr (fun c acc =>
    if c = ',' then [] :: acc
    else
      match acc with
      | [] => [[c]]
      | cur :: rest => (c :: cur) :: rest) [[]]

/-- Python `str.strip()`: drop leading and trailing whitespace characters. -/
def stripChars (s : List Char) : List Char :=
  ((s.dropWhile Char.isWhitespace).reverse.dropWhile Char.isWhitespace).reverse

/-- `s.split(',')` followed by `.strip()` on every piece, as in
`taggy_cli.py` lines 39-40. -/
def pySplitCommaStrip (s : String) : List String :=
  (splitCommaChars s.toList).map (fun cs => String.mk (stripChars cs))

/-- `taggy_cli.py` lines 39-41: labels from the config, defaulting to
`"random, general"`, split on commas, each entry stripped of whitespace. -/
def configLabels (defaults : Config) : List String :=
  pySplitCommaStrip ((defaults "labels").getD "random, general")

/-- `taggy_cli.py` line 43: `defaults.get("face_cascade_path", None)`. -/
def configFaceCascade (defaults : Config) : Option String :=
  defaults "face_cascade_path"

/-- `taggy_cli.py` lines 71-72: `if not operation: operation = defaults.get("operation", "symlink")`. -/
def effectiveOperation (cliOperation : Option String) (defaults : Config) : String :=
  match cliOperation with
  | some op => op
  | none => (defaults "operation").getD "symlink"

/-- `taggy_cli.py` lines 73-74: `if not labels: labels = ctx.obj['labels']`
(an empty tuple of `--labels` options is falsy in Python). -/
def effectiveLabels (cliLabels : List String) (defaults : Config) : List String :=
  if cliLabels.isEmpty then configLabels defaults else cliLabels

/-- `taggy_cli.py` lines 75-76: `if not face_cascade: face_cascade = ctx.obj['face_cascade_path']`
(an empty path string is falsy in Python, like `None`). -/
def effectiveFaceCascade (cliCascade : Option String) (defaults : Config) : Option String :=
  match cliCascade with
  | some c => if c.isEmpty then configFaceCascade defaults else some c
  | none => configFaceCascade defaults

/-- `taggy_cli.py` line 90:
`output_folder = output_folder if output_folder else f"{images_path}/taggy_output/duplicates/"`
(an empty string is falsy in Python, like `None`). -/
def effectiveOutputFolder (imagesPath : String) (outputFolder : Option String) : String :=
  match outputFolder with
  | some s => if s.isEmpty then imagesPath ++ "/taggy_output/duplicates/" else s
  | none => imagesPath ++ "/taggy_output/duplicates/"

/-- The option surface of one click subcommand, transcribed from its decorators. -/
structure CommandSurface where
  hasImagesPathOption : Bool
  imagesPathRequired : Bool
  hasOutputFolderOption : Bool
  hasThresholdOption : Bool
  hasTopKOption : Bool
  operationChoices : List String

/-- `duplicates` subcommand, `taggy_cli.py` lines 47-63: `--images-path` (required,
must exist), `--output-folder`, `--similarity-threshold`, no top-k,
`--operation` with `click.Choice(['copy', 'symlink', 'move'])`. -/
def duplicatesSurface : CommandSurface :=
  { hasImagesPathOption := true
    imagesPathRequired := true
    hasOutputFolderOption := true
    hasThresholdOption := true
    hasTopKOption := false
    operationChoices := ["copy", "symlink", "move"] }

/-- `tag` subcommand, `taggy_cli.py` lines 103-121: `--images-path` (required),
`--images-output-folder`, `--threshold`, `--top-k`,
`--operation` with `click.Choice(['copy', 'symlink'])` (line 114: no `move`). -/
def tagSurface : CommandSurface :=
  { hasImagesPathOption := true
    imagesPathRequired := true
    hasOutputFolderOption := true
    hasThresholdOption := true
    hasTopKOption := true
    operationChoices := ["copy", "symlink"] }

/-- `search` subcommand, `taggy_cli.py` lines 171-181: `--images-path` (required),
`--output-folder`, `--top-k`, no threshold,
`--operation` with `click.Choice(['copy', 'symlink', 'move'])`. -/
def searchSurface : CommandSurface :=
  { hasImagesPathOption := true
    imagesPathRequired := true
    hasOutputFolderOption := true
    hasThresholdOption := false
    hasTopKOption := true
    operationChoices := ["copy", "symlink", "move"] }

/-! ## Duplicate clustering engine

Modelled from the spec: `ImageTagger.find_duplicates` lives in
`utils/image_tagger.py`, which is not among the sources. Spec §4.2: build an
undirected graph with an edge between any two images whose similarity is at
least the threshold, and output the connected components of size ≥ 2 as
DuplicateGroups; ids are sorted before traversal (§4.2 determinism note). -/

/-- Two distinct images are adjacent when their similarity reaches the threshold. -/
def adjacent (sim : Nat → Nat → ℚ) (t : ℚ) (a b : Nat) : Bool :=
  decide (a ≠ b) && decide (t ≤ sim a b)

/-- Does block `B` contain `a` or `b`? -/
def touches (a b : Nat) (B : List Nat) : Bool :=
  B.contains a || B.contains b

/-- Merge all blocks of the partition meeting `a` or `b` into one block. -/
def addEdge (a b : Nat) (P : List (List Nat)) : List (List Nat) :=
  (P.filter (touches a b)).flatten :: P.filter (fun B => !(touches a b B))

/-- Process one candidate pair: merge its blocks when the pair is adjacent. -/
def stepPair (sim : Nat → Nat → ℚ) (t : ℚ) (P : List (List Nat)) (p : Nat × Nat) :
    List (List Nat) :=
  if adjacent sim t p.1 p.2 then addEdge p.1 p.2 P else P

/-- All ordered pairs drawn from the id list. -/
def allPairs (ids : List Nat) : List (Nat × Nat) :=
  ids.flatMap (fun a => ids.map (fun b => (a, b)))

/-- Connected components of the threshold graph, as a partition refinement:
start from singletons and merge along every adjacent pair. -/
def buildPartition (sim : Nat → Nat → ℚ) (t : ℚ) (ids : List Nat) : List (List Nat) :=
  (allPairs ids).foldl (stepPair sim t) (ids.map (fun x => [x]))

/-- Modelled from the spec: the clustering run. Ids are sorted before traversal
(§4.2), then the components of size ≥ 2 are emitted as DuplicateGroups
(singletons are never emitted, §3 DuplicateGroup). -/
def findDuplicates (sim : Nat → Nat → ℚ) (t : ℚ) (records : List Nat) : List (List Nat) :=
  let ids := List.insertionSort (· ≤ ·) records
  (buildPartition sim t ids).filter (fun B => decide (2 ≤ B.length))

/-- Candidate `x` beats current best `b`: strictly higher score, or equal score
and lexicographically smaller id (§4.4 deterministic tie-breaking). -/
def betterCandidate (score : Nat → ℚ) (x b : Nat) : Bool :=
  decide (score b < score x) || (decide (score x = score b) && decide (x < b))

/-- Modelled from the spec: the Best-Image Selector (§4.4): score every member
with the active policy, pick the maximum, break ties by id order. -/
def selectBest (score : Nat → ℚ) (G : List Nat) : Option Nat :=
  G.foldl (fun best x =>
    match best with
    | none => some x
    | some b => if betterCandidate score x b then some x else some b) none

/-- Modelled from the spec: under `move` the Output Organizer relocates each
group's members into that group's subfolder, one file operation per member of
each emitted group (§4.5); the files relocated in the whole run are the
members of the emitted groups in order. -/
def movedFiles (groups : List (List Nat)) : List Nat :=
  groups.flatten

/-- A well-formed intermediate partition of the id set: blocks without
duplicate entries, pairwise disjoint, covering every id. -/
structure GoodPartition (ids : List Nat) (P : List (List Nat)) : Prop where
  nodup : ∀ B ∈ P, B.Nodup
  disj : P.Pairwise List.Disjoint
  cover : ∀ x ∈ ids, ∃ B ∈ P, x ∈ B

/-- `a` and `b` lie in one common block of `P`. -/
def sameBlock (P : List (List Nat)) (a b : Nat) : Prop :=
  ∃ B ∈ P, a ∈ B ∧ b ∈ B

/-- Every block of `P` sits inside a single block of `Q`. -/
def Refines (P Q : List (List Nat)) : Prop :=
  ∀ B ∈ P, ∀ x ∈ B, ∀ y ∈ B, sameBlock Q x y

/-! ## Command bodies -/

/-- How a command run ends. -/
inductive ExitKind : Type
  | normal : ExitKind
  | errored : ExitKind
deriving DecidableEq

/-- The observable outcome of the `duplicates` command body. -/
structure CmdResult where
  messages : List String
  exitKind : ExitKind
  organized : Bool
  operationUsed : String
  labelsUsed : List String
  outputFolderUsed : Option String
deriving DecidableEq

/-- `find_duplicates_cmd`, `taggy_cli.py` lines 65-100: resolve defaults,
run clustering, report and return when no duplicates, otherwise organize
into the (possibly defaulted) output folder. -/
def find_duplicates_cmd (defaults : Config) (imagesPath : String)
    (outputFolder : Option String) (cliLabels : List String) (cliOperation : Option String)
    (sim : Nat → Nat → ℚ) (similarityThreshold : ℚ) (records : List Nat) : CmdResult :=
  let operation := effectiveOperation cliOperation defaults
  let labels := effectiveLabels cliLabels defaults
  let duplicates := findDuplicates sim similarityThreshold records
  if duplicates.isEmpty then
    { messages := ["Operation: " ++ operation, "No duplicates found."]
      exitKind := ExitKind.normal
      organized := false
      operationUsed := operation
      labelsUsed := labels
      outputFolderUsed := none }
  else
    { messages := ["Operation: " ++ operation]
      exitKind := ExitKind.normal
      organized := true
      operationUsed := operation
      labelsUsed := labels
      outputFolderUsed := some (effectiveOutputFolder imagesPath outputFolder) }

/-- The observable outcome of the `search` command body. -/
structure SearchCmdResult where
  messages : List String
  exitKind : ExitKind
deriving DecidableEq

/-- `search_images_cmd`, `taggy_cli.py` lines 182-196: the ranked results come
from the external `tagger.search_images`; an empty result list is reported
and the command returns normally. -/
def search_images_cmd (results : List (String × ℚ)) (query : String) : SearchCmdResult :=
  if results.isEmpty then
    { messages := ["No results found (no images or none matched)."]
      exitKind := ExitKind.normal }
  else
    { messages := ["Top results for " ++ query]
      exitKind := ExitKind.normal }

/-! ## Scoring (advanced policy) -/

/-- The per-image attributes the scoring policies consume. -/
structure ImgData where
  sharpness : ℚ
  resolution : ℚ
deriving DecidableEq

/-- Modelled from the spec: configuring the optional face detector from the
cascade path (§6 Face Detector: absence must not be an error; loading a
configured cascade may fail). -/
def configureFaceDetector (cascade : Option String)
    (loadCascade : String → Except String (ImgData → Nat)) :
    Except String (Option (ImgData → Nat)) :=
  match cascade with
  | none => Except.ok none
  | some p => (loadCascade p).map some

/-- Modelled from the spec: the `advanced` scoring policy (§4.3): a weighted
sum of sharpness and resolution, plus a face bonus only when a face detector
is configured and detects at least one face. -/
def advancedScore (detector : Option (ImgData → Nat)) (wS wR wF : ℚ) (img : ImgData) : ℚ :=
  match detector with
  | none => wS * img.sharpness + wR * img.resolution
  | some det =>
      wS * img.sharpness + wR * img.resolution + (if 0 < det img then wF else 0)

/-- Modelled from the spec: a run of the advanced policy: resolve the cascade
path as the CLI does (`taggy_cli.py` lines 58, 75-76), configure the detector,
then score. -/
def runAdvancedScore (cliCascade : Option String) (defaults : Config)
    (loadCascade : String → Except String (ImgData → Nat)) (wS wR wF : ℚ) (img : ImgData) :
    Except String ℚ :=
  (configureFaceDetector (effectiveFaceCascade cliCascade defaults) loadCascade).map
    (fun det => advancedScore det wS wR wF img)

/-! ## Input validation (click) -/

/-- The filesystem facts click consults when parsing options. -/
structure World where
  pathExists : String → Bool

/-- `--images-path` is declared `type=click.Path(exists=True), required=True`
(`taggy_cli.py` lines 48-49): click rejects a non-existent path before the
command function runs. -/
def clickValidateImagesPath (w : World) (p : String) : Except String String :=
  if w.pathExists p then Except.ok p
  else Except.error ("Invalid value for --images-path: Path does not exist: " ++ p)

/-- A full `duplicates` invocation: click validates the images path first; only
on success does the command body (clustering, then organizing) run. -/
def run_duplicates_cli (w : World) (defaults : Config) (imagesPath : String)
    (outputFolder : Option String) (cliLabels : List String) (cliOperation : Option String)
    (sim : Nat → Nat → ℚ) (t : ℚ) (records : List Nat) : Except String CmdResult :=
  (clickValidateImagesPath w imagesPath).map (fun p =>
    find_duplicates_cmd defaults p outputFolder cliLabels cliOperation sim t records)

/-! ## Partition machinery -/

theorem touches_iff {a b : Nat} {B : List Nat} :
    touches a b B = true ↔ a ∈ B ∨ b ∈ B := by
  simp [touches]

theorem list_disjoint_symmetric : Symmetric (List.Disjoint (α := Nat)) :=
  fun _ _ h _ hb ha => h ha hb

theorem block_unique {ids : List Nat} {P : List (List Nat)} (hP : GoodPartition ids P)
    {B C : List Nat} {x : Nat} (hB : B ∈ P) (hC : C ∈ P) (hxB : x ∈ B) (hxC : x ∈ C) :
    B = C := by
  by_contra hne
  exact (hP.disj.forall list_disjoint_symmetric hB hC hne) hxB hxC

theorem addEdge_good {ids : List Nat} {P : List (List Nat)} (hP : GoodPartition ids P)
    (a b : Nat) : GoodPartition ids (addEdge a b P) := by
  constructor
  · intro B hB
    rcases List.mem_cons.mp hB with h | h
    · subst h
      refine List.nodup_flatten.mpr ⟨?_, ?_⟩
      · intro l hl
        exact hP.nodup l (List.mem_of_mem_filter hl)
      · exact hP.disj.sublist (List.filter_sublist P)
    · exact hP.nodup B (List.mem_of_mem_filter h)
  · refine List.pairwise_cons.mpr ⟨?_, hP.disj.sublist (List.filter_sublist P)⟩
    intro C hC x hxF hxC
    rcases List.mem_flatten.mp hxF with ⟨B1, hB1, hxB1⟩
    have hB1P := List.mem_of_mem_filter hB1
    have hCP := List.mem_of_mem_filter hC
    have hne : B1 ≠ C := by
      intro heq
      subst heq
      have h1 := List.of_mem_filter hB1
      have h2 := List.of_mem_filter hC
      simp only [h1] at h2
      exact absurd h2 (by simp)
    exact (hP.disj.forall list_disjoint_symmetric hB1P hCP hne) hxB1 hxC
  · intro x hx
    rcases hP.cover x hx with ⟨B, hB, hxB⟩
    by_cases ht : touches a b B = true
    · exact ⟨_, List.mem_cons_self _ _,
        List.mem_flatten.mpr ⟨B, List.mem_filter.mpr ⟨hB, ht⟩, hxB⟩⟩
    · have ht' : touches a b B = false := by simpa using ht
      exact ⟨B, List.mem_cons_of_mem _ (List.mem_filter.mpr ⟨hB, by simp [ht']⟩), hxB⟩

theorem stepPair_good {ids : List Nat} {P : List (List Nat)} (hP : GoodPartition ids P)
    (sim : Nat → Nat → ℚ) (t : ℚ) (p : Nat × Nat) :
    GoodPartition ids (stepPair sim t P p) := by
  unfold stepPair
  split
  · exact addEdge_good hP p.1 p.2
  · exact hP

theorem foldl_stepPair_good {ids : List Nat} (sim : Nat → Nat → ℚ) (t : ℚ)
    (pairs : List (Nat × Nat)) {P : List (List Nat)} (hP : GoodPartition ids P) :
    GoodPartition ids (pairs.foldl (stepPair sim t) P) := by
  induction pairs generalizing P with
  | nil => exact hP
  | cons p rest ih => exact ih (stepPair_good hP sim t p)

theorem singletons_good {ids : List Nat} (h : ids.Nodup) :
    GoodPartition ids (ids.map (fun x => [x])) := by
  constructor
  · intro B hB
    rcases List.mem_map.mp hB with ⟨x, _, rfl⟩
    exact List.nodup_singleton x
  · refine List.pairwise_map.mpr (h.imp ?_)
    intro x y hxy z hzx hzy
    exact hxy ((List.mem_singleton.mp hzx).symm.trans (List.mem_singleton.mp hzy))
  · intro x hx
    exact ⟨[x], List.mem_map_of_mem _ hx, List.mem_singleton_self x⟩

theorem buildPartition_good {ids : List Nat} (h : ids.Nodup) (sim : Nat → Nat → ℚ) (t : ℚ) :
    GoodPartition ids (buildPartition sim t ids) :=
  foldl_stepPair_good sim t _ (singletons_good h)

theorem sameBlock_addEdge {P : List (List Nat)} {x y : Nat} (h : sameBlock P x y)
    (a b : Nat) : sameBlock (addEdge a b P) x y := by
  rcases h with ⟨B, hB, hxB, hyB⟩
  by_cases ht : touches a b B = true
  · exact ⟨_, List.mem_cons_self _ _,
      List.mem_flatten.mpr ⟨B, List.mem_filter.mpr ⟨hB, ht⟩, hxB⟩,
      List.mem_flatten.mpr ⟨B, List.mem_filter.mpr ⟨hB, ht⟩, hyB⟩⟩
  · have ht' : touches a b B = false := by simpa using ht
    exact ⟨B, List.mem_cons_of_mem _ (List.mem_filter.mpr ⟨hB, by simp [ht']⟩), hxB, hyB⟩

theorem sameBlock_stepPair {P : List (List Nat)} {x y : Nat} (h : sameBlock P x y)
    (sim : Nat → Nat → ℚ) (t : ℚ) (p : Nat × Nat) :
    sameBlock (stepPair sim t P p) x y := by
  unfold stepPair
  split
  · exact sameBlock_addEdge h p.1 p.2
  · exact h

theorem sameBlock_foldl {x y : Nat} (sim : Nat → Nat → ℚ) (t : ℚ)
    (pairs : List (Nat × Nat)) {P : List (List Nat)} (h : sameBlock P x y) :
    sameBlock (pairs.foldl (stepPair sim t) P) x y := by
  induction pairs generalizing P with
  | nil => exact h
  | cons p rest ih => exact ih (sameBlock_stepPair h sim t p)

theorem addEdge_connects {ids : List Nat} {P : List (List Nat)} (hP : GoodPartition ids P)
    {a b : Nat} (ha : a ∈ ids) (hb : b ∈ ids) : sameBlock (addEdge a b P) a b := by
  rcases hP.cover a ha with ⟨Ba, hBa, haBa⟩
  rcases hP.cover b hb with ⟨Bb, hBb, hbBb⟩
  have hta : touches a b Ba = true := touches_iff.mpr (Or.inl haBa)
  have htb : touches a b Bb = true := touches_iff.mpr (Or.inr hbBb)
  exact ⟨_, List.mem_cons_self _ _,
    List.mem_flatten.mpr ⟨Ba, List.mem_filter.mpr ⟨hBa, hta⟩, haBa⟩,
    List.mem_flatten.mpr ⟨Bb, List.mem_filter.mpr ⟨hBb, htb⟩, hbBb⟩⟩

theorem mem_allPairs {ids : List Nat} {a b : Nat} (ha : a ∈ ids) (hb : b ∈ ids) :
    (a, b) ∈ allPairs ids := by
  simp only [allPairs, List.mem_flatMap, List.mem_map]
  exact ⟨a, ha, b, hb, rfl⟩

theorem allPairs_mem {ids : List Nat} {p : Nat × Nat} (h : p ∈ allPairs ids) :
    p.1 ∈ ids ∧ p.2 ∈ ids := by
  simp only [allPairs, List.mem_flatMap, List.mem_map] at h
  rcases h with ⟨a, ha, b, hb, rfl⟩
  exact ⟨ha, hb⟩

theorem foldl_connects {ids : List Nat} (sim : Nat → Nat → ℚ) (t : ℚ)
    (pairs : List (Nat × Nat)) {P : List (List Nat)} (hP : GoodPartition ids P)
    {a b : Nat} (hmem : (a, b) ∈ pairs) (hadj : adjacent sim t a b = true)
    (ha : a ∈ ids) (hb : b ∈ ids) :
    sameBlock (pairs.foldl (stepPair sim t) P) a b := by
  induction pairs generalizing P with
  | nil => cases hmem
  | cons p rest ih =>
      rcases List.mem_cons.mp hmem with heq | hmem'
      · rw [List.foldl_cons, ← heq]
        have hstep : stepPair sim t P (a, b) = addEdge a b P := by
          simp [stepPair, hadj]
        rw [hstep]
        exact sameBlock_foldl sim t rest (addEdge_connects hP ha hb)
      · exact ih (stepPair_good hP sim t p) hmem'

theorem buildPartition_connects {ids : List Nat} (h : ids.Nodup) (sim : Nat → Nat → ℚ)
    (t : ℚ) {a b : Nat} (ha : a ∈ ids) (hb : b ∈ ids)
    (hadj : adjacent sim t a b = true) :
    sameBlock (buildPartition sim t ids) a b :=
  foldl_connects sim t _ (singletons_good h) (mem_allPairs ha hb) hadj ha hb

theorem sameBlock_self {ids : List Nat} {P : List (List Nat)} {x : Nat}
    (hP : GoodPartition ids P) (hx : x ∈ ids) : sameBlock P x x := by
  rcases hP.cover x hx with ⟨B, hB, hxB⟩
  exact ⟨B, hB, hxB, hxB⟩

theorem sameBlock_symm {P : List (List Nat)} {x y : Nat} (h : sameBlock P x y) :
    sameBlock P y x := by
  rcases h with ⟨B, hB, hx, hy⟩
  exact ⟨B, hB, hy, hx⟩

theorem sameBlock_trans {ids : List Nat} {P : List (List Nat)} {x y z : Nat}
    (hP : GoodPartition ids P) (h1 : sameBlock P x y) (h2 : sameBlock P y z) :
    sameBlock P x z := by
  rcases h1 with ⟨B, hB, hx, hy⟩
  rcases h2 with ⟨C, hC, hy', hz⟩
  have hBC : B = C := block_unique hP hB hC hy hy'
  exact ⟨B, hB, hx, by rw [hBC]; exact hz⟩

theorem refines_addEdge {ids : List Nat} {Q P : List (List Nat)}
    (hQ : GoodPartition ids Q) (hR : Refines P Q) {a b : Nat}
    (hab : sameBlock Q a b) : Refines (addEdge a b P) Q := by
  intro B hB x hxB y hyB
  rcases List.mem_cons.mp hB with heq | hmem
  · subst heq
    rcases List.mem_flatten.mp hxB with ⟨B1, hB1, hx1⟩
    rcases List.mem_flatten.mp hyB with ⟨B2, hB2, hy2⟩
    have hB1P := List.mem_of_mem_filter hB1
    have hB2P := List.mem_of_mem_filter hB2
    have ht1 := List.of_mem_filter hB1
    have ht2 := List.of_mem_filter hB2
    have hx' : sameBlock Q x a ∨ sameBlock Q x b := by
      rcases touches_iff.mp ht1 with h1 | h1
      · exact Or.inl (hR B1 hB1P x hx1 a h1)
      · exact Or.inr (hR B1 hB1P x hx1 b h1)
    have hy' : sameBlock Q a y ∨ sameBlock Q b y := by
      rcases touches_iff.mp ht2 with h2 | h2
      · exact Or.inl (sameBlock_symm (hR B2 hB2P y hy2 a h2))
      · exact Or.inr (sameBlock_symm (hR B2 hB2P y hy2 b h2))
    rcases hx' with hxa | hxb <;> rcases hy' with hay | hby
    · exact sameBlock_trans hQ hxa hay
    · exact sameBlock_trans hQ (sameBlock_trans hQ hxa hab) hby
    · exact sameBlock_trans hQ (sameBlock_trans hQ hxb (sameBlock_symm hab)) hay
    · exact sameBlock_trans hQ hxb hby
  · exact hR B (List.mem_of_mem_filter hmem) x hxB y hyB

theorem refines_fold {ids : List Nat} {Q : List (List Nat)} (hQ : GoodPartition ids Q)
    (sim : Nat → Nat → ℚ) (t : ℚ) (pairs : List (Nat × Nat))
    (hpairs : ∀ p ∈ pairs, adjacent sim t p.1 p.2 = true → sameBlock Q p.1 p.2)
    {P : List (List Nat)} (hR : Refines P Q) :
    Refines (pairs.foldl (stepPair sim t) P) Q := by
  induction pairs generalizing P with
  | nil => exact hR
  | cons p rest ih =>
      refine ih (fun q hq => hpairs q (List.mem_cons_of_mem _ hq)) ?_
      unfold stepPair
      split
      · next hadj => exact refines_addEdge hQ hR (hpairs p (List.mem_cons_self _ _) hadj)
      · exact hR

theorem adjacent_mono {sim : Nat → Nat → ℚ} {t1 t2 : ℚ} (h : t1 ≤ t2) {a b : Nat}
    (hadj : adjacent sim t2 a b = true) : adjacent sim t1 a b = true := by
  simp only [adjacent, Bool.and_eq_true, decide_eq_true_eq] at hadj ⊢
  exact ⟨hadj.1, le_trans h hadj.2⟩

theorem buildPartition_refines {ids : List Nat} (h : ids.Nodup) (sim : Nat → Nat → ℚ)
    {t1 t2 : ℚ} (hle : t1 ≤ t2) :
    Refines (buildPartition sim t2 ids) (buildPartition sim t1 ids) := by
  have hQ := buildPartition_good h sim t1
  refine refines_fold hQ sim t2 _ ?_ ?_
  · intro p hp hadj
    rcases allPairs_mem hp with ⟨h1, h2⟩
    exact buildPartition_connects h sim t1 h1 h2 (adjacent_mono hle hadj)
  · intro B hB x hxB y hyB
    rcases List.mem_map.mp hB with ⟨z, hz, rfl⟩
    have hx := List.mem_singleton.mp hxB
    have hy := List.mem_singleton.mp hyB
    subst hx
    subst hy
    exact sameBlock_self hQ hz

theorem findDuplicates_eq (sim : Nat → Nat → ℚ) (t : ℚ) (records : List Nat) :
    findDuplicates sim t records =
      (buildPartition sim t (List.insertionSort (· ≤ ·) records)).filter
        (fun B => decide (2 ≤ B.length)) := rfl

theorem sortedIds_nodup {records : List Nat} (h : records.Nodup) :
    (List.insertionSort (· ≤ ·) records).Nodup :=
  (List.perm_insertionSort _ records).nodup_iff.mpr h

/-! ## Claim theorems -/

/-- Claim C5: when the `duplicates` subcommand finds no duplicates, or the
`search` subcommand finds no matches, the command reports the empty outcome
and terminates normally (prints a message and returns) rather than raising
an error. -/
theorem no_results_is_normal_outcome (defaults : Config) (imagesPath : String)
    (outputFolder : Option String) (cliLabels : List String) (cliOperation : Option String)
    (sim : Nat → Nat → ℚ) (t : ℚ) (records : List Nat)
    (results : List (String × ℚ)) (query : String)
    (hdup : findDuplicates sim t records = [])
    (hres : results = []) :
    (find_duplicates_cmd defaults imagesPath outputFolder cliLabels cliOperation
        sim t records).exitKind = ExitKind.normal ∧
    "No duplicates found." ∈ (find_duplicates_cmd defaults imagesPath outputFolder cliLabels
        cliOperation sim t records).messages ∧
    (find_duplicates_cmd defaults imagesPath outputFolder cliLabels cliOperation
        sim t records).organized = false ∧
    (search_images_cmd results query).exitKind = ExitKind.normal ∧
    "No results found (no images or none matched)." ∈ (search_images_cmd results query).messages := by
  subst hres
  simp [find_duplicates_cmd, search_images_cmd, hdup]

/-- Witness for C5 at a concrete empty run. -/
theorem no_results_is_normal_outcome_witness :
    findDuplicates (fun _ _ => (0 : ℚ)) 0 [] = [] ∧
    ([] : List (String × ℚ)) = [] ∧
    ((find_duplicates_cmd (fun _ => none) "imgs" none [] none
        (fun _ _ => (0 : ℚ)) 0 []).exitKind = ExitKind.normal ∧
      "No duplicates found." ∈ (find_duplicates_cmd (fun _ => none) "imgs" none [] none
        (fun _ _ => (0 : ℚ)) 0 []).messages ∧
      (find_duplicates_cmd (fun _ => none) "imgs" none [] none
        (fun _ _ => (0 : ℚ)) 0 []).organized = false ∧
      (search_images_cmd [] "cat").exitKind = ExitKind.normal ∧
      "No results found (no images or none matched)." ∈ (search_images_cmd [] "cat").messages) :=
  ⟨rfl, rfl,
    no_results_is_normal_outcome (fun _ => none) "imgs" none [] none
      (fun _ _ => (0 : ℚ)) 0 [] [] "cat" rfl rfl⟩

/-- Claim C6 as stated is false: the `tag` subcommand's `--operation` is
declared `click.Choice(['copy', 'symlink'])` (`taggy_cli.py` line 114),
so `move` is not an accepted operation mode for `tag`. -/
theorem tag_has_no_move_operation : "move" ∉ tagSurface.operationChoices := by
  decide

/-- Claim C6 (amended): each of `duplicates`, `tag`, `search` takes a required
images path, an output folder option, a threshold and/or top-k option, and an
operation mode; `duplicates` and `search` accept `copy`, `symlink`, `move`,
while `tag` accepts only `copy` and `symlink`. -/
theorem command_surfaces_amended :
    (duplicatesSurface.hasImagesPathOption = true ∧ duplicatesSurface.imagesPathRequired = true ∧
      duplicatesSurface.hasOutputFolderOption = true ∧ duplicatesSurface.hasThresholdOption = true) ∧
    (tagSurface.hasImagesPathOption = true ∧ tagSurface.imagesPathRequired = true ∧
      tagSurface.hasOutputFolderOption = true ∧ tagSurface.hasThresholdOption = true ∧
      tagSurface.hasTopKOption = true) ∧
    (searchSurface.hasImagesPathOption = true ∧ searchSurface.imagesPathRequired = true ∧
      searchSurface.hasOutputFolderOption = true ∧ searchSurface.hasTopKOption = true) ∧
    duplicatesSurface.operationChoices = ["copy", "symlink", "move"] ∧
    searchSurface.operationChoices = ["copy", "symlink", "move"] ∧
    tagSurface.operationChoices = ["copy", "symlink"] := by
  decide

/-- Claim C7: with no `--face-cascade` option and no config value, the run
proceeds without error: no cascade is ever loaded and the `advanced` policy
scores by sharpness and resolution only. -/
theorem no_cascade_degrades_gracefully (cliCascade : Option String) (defaults : Config)
    (loadCascade : String → Except String (ImgData → Nat)) (wS wR wF : ℚ) (img : ImgData)
    (h1 : cliCascade = none) (h2 : defaults "face_cascade_path" = none) :
    runAdvancedScore cliCascade defaults loadCascade wS wR wF img =
      Except.ok (wS * img.sharpness + wR * img.resolution) := by
  subst h1
  simp [runAdvancedScore, effectiveFaceCascade, configFaceCascade, h2,
    configureFaceDetector, advancedScore, Except.map]

/-- Witness for C7: even a cascade loader that always fails is never invoked. -/
theorem no_cascade_degrades_gracefully_witness :
    (none : Option String) = none ∧
    ((fun _ => none : Config) "face_cascade_path") = none ∧
    runAdvancedScore none (fun _ => none) (fun _ => Except.error "no cascade file")
        1 1 1 ⟨2, 3⟩ = Except.ok (1 * 2 + 1 * 3) :=
  ⟨rfl, rfl,
    no_cascade_degrades_gracefully none (fun _ => none) (fun _ => Except.error "no cascade file")
      1 1 1 ⟨2, 3⟩ rfl rfl⟩

/-- Claim C8: a non-existent images path is rejected by click's option
validation before the command body runs: the invocation yields an error and
no clustering or organizing work (no `CmdResult`, no output folder) happens. -/
theorem invalid_path_fails_before_work (w : World) (defaults : Config) (imagesPath : String)
    (outputFolder : Option String) (cliLabels : List String) (cliOperation : Option String)
    (sim : Nat → Nat → ℚ) (t : ℚ) (records : List Nat)
    (h : w.pathExists imagesPath = false) :
    run_duplicates_cli w defaults imagesPath outputFolder cliLabels cliOperation sim t records =
      Except.error ("Invalid value for --images-path: Path does not exist: " ++ imagesPath) := by
  simp [run_duplicates_cli, clickValidateImagesPath, h, Except.map]

/-- Witness for C8 on a world with no paths. -/
theorem invalid_path_fails_before_work_witness :
    (World.mk (fun _ => false)).pathExists "missing" = false ∧
    run_duplicates_cli (World.mk (fun _ => false)) (fun _ => none) "missing" none [] none
        (fun _ _ => (0 : ℚ)) 0 [] =
      Except.error ("Invalid value for --images-path: Path does not exist: " ++ "missing") :=
  ⟨rfl,
    invalid_path_fails_before_work (World.mk (fun _ => false)) (fun _ => none) "missing"
      none [] none (fun _ _ => (0 : ℚ)) 0 [] rfl⟩

/-- Claim C9: when `--output-folder` is omitted and duplicates are organized,
the output goes under the fixed path `<images_path>/taggy_output/duplicates/`
derived from the images path. -/
theorem default_output_folder_used (defaults : Config) (imagesPath : String)
    (cliLabels : List String) (cliOperation : Option String)
    (sim : Nat → Nat → ℚ) (t : ℚ) (records : List Nat)
    (h : findDuplicates sim t records ≠ []) :
    (find_duplicates_cmd defaults imagesPath none cliLabels cliOperation
        sim t records).outputFolderUsed =
      some (imagesPath ++ "/taggy_output/duplicates/") := by
  simp only [find_duplicates_cmd]
  rw [if_neg]
  · rfl
  · simp [List.isEmpty_iff, h]

/-- Witness for C9 at a run producing one duplicate group. -/
theorem default_output_folder_used_witness :
    findDuplicates (fun a b => if (a, b) ∈ [((0 : Nat), (1 : Nat)), (1, 0)] then 1 else 0)
        1 [2, 0, 1] ≠ [] ∧
    (find_duplicates_cmd (fun _ => none) "imgs" none [] none
        (fun a b => if (a, b) ∈ [((0 : Nat), (1 : Nat)), (1, 0)] then 1 else 0)
        1 [2, 0, 1]).outputFolderUsed =
      some ("imgs" ++ "/taggy_output/duplicates/") :=
  ⟨by decide,
    default_output_folder_used (fun _ => none) "imgs" [] none
      (fun a b => if (a, b) ∈ [((0 : Nat), (1 : Nat)), (1, 0)] then 1 else 0)
      1 [2, 0, 1] (by decide)⟩

/-- Claim C10: when `--operation` or `--labels` is omitted on the `duplicates`
subcommand, the value falls back to the loaded config: the operation to the
config key `operation`, else `"symlink"`; the labels to the config key
`labels`, else `"random, general"`, split on commas with each piece
stripped of whitespace (yielding `["random", "general"]`). -/
theorem omitted_options_fall_back_to_config (defaults : Config) (imagesPath : String)
    (outputFolder : Option String) (cliLabels : List String) (cliOperation : Option String)
    (sim : Nat → Nat → ℚ) (t : ℚ) (records : List Nat)
    (h1 : cliOperation = none) (h2 : cliLabels = []) :
    (find_duplicates_cmd defaults imagesPath outputFolder cliLabels cliOperation
        sim t records).operationUsed = (defaults "operation").getD "symlink" ∧
    (find_duplicates_cmd defaults imagesPath outputFolder cliLabels cliOperation
        sim t records).labelsUsed =
      pySplitCommaStrip ((defaults "labels").getD "random, general") ∧
    effectiveOperation none (fun _ => none) = "symlink" ∧
    effectiveLabels [] (fun _ => none) = ["random", "general"] := by
  subst h1; subst h2
  refine ⟨?_, ?_, by decide, by decide⟩ <;>
    cases h : (findDuplicates sim t records).isEmpty <;>
      simp [find_duplicates_cmd, h, effectiveOperation, effectiveLabels, configLabels]

/-- Witness for C10 with both options omitted and an empty config. -/
theorem omitted_options_fall_back_to_config_witness :
    (none : Option String) = none ∧ ([] : List String) = [] ∧
    ((find_duplicates_cmd (fun _ => none) "imgs" none [] none
        (fun _ _ => (0 : ℚ)) 0 []).operationUsed =
      (((fun _ => none) : Config) "operation").getD "symlink" ∧
    (find_duplicates_cmd (fun _ => none) "imgs" none [] none
        (fun _ _ => (0 : ℚ)) 0 []).labelsUsed =
      pySplitCommaStrip ((((fun _ => none) : Config) "labels").getD "random, general") ∧
    effectiveOperation none (fun _ => none) = "symlink" ∧
    effectiveLabels [] (fun _ => none) = ["random", "general"]) :=
  ⟨rfl, rfl,
    omitted_options_fall_back_to_config (fun _ => none) "imgs" none [] none
      (fun _ _ => (0 : ℚ)) 0 [] rfl rfl⟩

/-- Claim C1: for every run of duplicate clustering, the returned
DuplicateGroups are pairwise disjoint: no image id appears as a member of
more than one group. -/
theorem duplicate_groups_disjoint (sim : Nat → Nat → ℚ) (t : ℚ) (records : List Nat)
    (h : records.Nodup) :
    (findDuplicates sim t records).Pairwise List.Disjoint := by
  have hG := buildPartition_good (sortedIds_nodup h) sim t
  rw [findDuplicates_eq]
  exact hG.disj.sublist (List.filter_sublist _)

/-- Witness for C1 on three images with one similar pair. -/
theorem duplicate_groups_disjoint_witness :
    ([2, 0, 1] : List Nat).Nodup ∧
    (findDuplicates (fun a b => if (a, b) ∈ [((0 : Nat), (1 : Nat)), (1, 0)] then 1 else 0)
        1 [2, 0, 1]).Pairwise List.Disjoint :=
  ⟨by decide,
    duplicate_groups_disjoint
      (fun a b => if (a, b) ∈ [((0 : Nat), (1 : Nat)), (1, 0)] then 1 else 0)
      1 [2, 0, 1] (by decide)⟩

/-- Claim C2: for a fixed embedding set and thresholds `t1 < t2`, every group
produced at `t2` is a subset of some group produced at `t1`, and its size
never exceeds that group's size: raising the threshold only shrinks groups or
makes them disappear. -/
theorem threshold_monotonicity (sim : Nat → Nat → ℚ) (t1 t2 : ℚ) (records : List Nat)
    (h : records.Nodup) (hlt : t1 < t2) :
    ∀ G ∈ findDuplicates sim t2 records, ∃ G' ∈ findDuplicates sim t1 records,
      (∀ x ∈ G, x ∈ G') ∧ G.length ≤ G'.length := by
  intro G hG
  have hn := sortedIds_nodup h
  have hQ := buildPartition_good hn sim t1
  have hP2 := buildPartition_good hn sim t2
  have hRef := buildPartition_refines hn sim (le_of_lt hlt)
  rw [findDuplicates_eq] at hG
  have hGmem := List.mem_of_mem_filter hG
  have hGlen : 2 ≤ G.length := by
    have := List.of_mem_filter hG
    simpa using this
  have hGne : G ≠ [] := by
    intro hnil
    rw [hnil] at hGlen
    simp at hGlen
  obtain ⟨x0, hx0⟩ := List.exists_mem_of_ne_nil G hGne
  obtain ⟨B, hB, hx0B, _⟩ := hRef G hGmem x0 hx0 x0 hx0
  have hsub : ∀ y ∈ G, y ∈ B := by
    intro y hy
    obtain ⟨C, hC, hx0C, hyC⟩ := hRef G hGmem x0 hx0 y hy
    rw [← block_unique hQ hB hC hx0B hx0C] at hyC
    exact hyC
  have hGnodup : G.Nodup := hP2.nodup G hGmem
  have hlen : G.length ≤ B.length :=
    (List.subperm_of_subset hGnodup (fun y hy => hsub y hy)).length_le
  refine ⟨B, ?_, hsub, hlen⟩
  rw [findDuplicates_eq]
  refine List.mem_filter.mpr ⟨hB, ?_⟩
  simp only [decide_eq_true_eq]
  exact le_trans hGlen hlen

/-- Witness for C2: edge 0-1 at similarity 2, edge 1-2 at similarity 1;
raising the threshold from 1 to 2 shrinks the group. -/
theorem threshold_monotonicity_witness :
    ([0, 1, 2] : List Nat).Nodup ∧ (1 : ℚ) < 2 ∧
    (∀ G ∈ findDuplicates
        (fun a b => if (a, b) ∈ [((0 : Nat), (1 : Nat)), (1, 0)] then 2
          else if (a, b) ∈ [((1 : Nat), (2 : Nat)), (2, 1)] then 1 else 0)
        2 [0, 1, 2],
      ∃ G' ∈ findDuplicates
        (fun a b => if (a, b) ∈ [((0 : Nat), (1 : Nat)), (1, 0)] then 2
          else if (a, b) ∈ [((1 : Nat), (2 : Nat)), (2, 1)] then 1 else 0)
        1 [0, 1, 2],
      (∀ x ∈ G, x ∈ G') ∧ G.length ≤ G'.length) :=
  ⟨by decide, by decide,
    threshold_monotonicity
      (fun a b => if (a, b) ∈ [((0 : Nat), (1 : Nat)), (1, 0)] then 2
        else if (a, b) ∈ [((1 : Nat), (2 : Nat)), (2, 1)] then 1 else 0)
      1 2 [0, 1, 2] (by decide) (by decide)⟩

/-- Claim C3: clustering (and best-image selection) is deterministic: the id
set is sorted before traversal, so two runs on the same embedding set — the
input list presented in any order — produce identical group membership and
identical chosen-best ids. -/
theorem clustering_deterministic (sim : Nat → Nat → ℚ) (t : ℚ) (score : Nat → ℚ)
    (l1 l2 : List Nat) (hp : l1.Perm l2) :
    findDuplicates sim t l1 = findDuplicates sim t l2 ∧
      (findDuplicates sim t l1).map (selectBest score) =
        (findDuplicates sim t l2).map (selectBest score) := by
  have hs : List.insertionSort (· ≤ ·) l1 = List.insertionSort (· ≤ ·) l2 :=
    List.eq_of_perm_of_sorted
      ((List.perm_insertionSort _ l1).trans (hp.trans (List.perm_insertionSort _ l2).symm))
      (List.sorted_insertionSort _ l1) (List.sorted_insertionSort _ l2)
  constructor
  · simp only [findDuplicates_eq, hs]
  · simp only [findDuplicates_eq, hs]

/-- Witness for C3 on two orderings of the same id set. -/
theorem clustering_deterministic_witness :
    ([2, 0, 1] : List Nat).Perm [0, 1, 2] ∧
    (findDuplicates (fun a b => if (a, b) ∈ [((0 : Nat), (1 : Nat)), (1, 0)] then 1 else 0)
        1 [2, 0, 1] =
      findDuplicates (fun a b => if (a, b) ∈ [((0 : Nat), (1 : Nat)), (1, 0)] then 1 else 0)
        1 [0, 1, 2] ∧
    (findDuplicates (fun a b => if (a, b) ∈ [((0 : Nat), (1 : Nat)), (1, 0)] then 1 else 0)
        1 [2, 0, 1]).map (selectBest (fun x => x)) =
      (findDuplicates (fun a b => if (a, b) ∈ [((0 : Nat), (1 : Nat)), (1, 0)] then 1 else 0)
        1 [0, 1, 2]).map (selectBest (fun x => x))) :=
  ⟨by decide,
    clustering_deterministic
      (fun a b => if (a, b) ∈ [((0 : Nat), (1 : Nat)), (1, 0)] then 1 else 0)
      1 (fun x => x) [2, 0, 1] [0, 1, 2] (by decide)⟩

/-- Claim C4: under the `move` operation each source file is relocated at most
once in the whole run: the files moved are the members of the emitted groups,
and no id occurs twice among them. -/
theorem move_relocates_at_most_once (sim : Nat → Nat → ℚ) (t : ℚ) (records : List Nat)
    (f : Nat) (h : records.Nodup) :
    (movedFiles (findDuplicates sim t records)).count f ≤ 1 := by
  have hG := buildPartition_good (sortedIds_nodup h) sim t
  have hnodup : (movedFiles (findDuplicates sim t records)).Nodup := by
    show (findDuplicates sim t records).flatten.Nodup
    refine List.nodup_flatten.mpr ⟨?_, ?_⟩
    · intro l hl
      rw [findDuplicates_eq] at hl
      exact hG.nodup l (List.mem_of_mem_filter hl)
    · rw [findDuplicates_eq]
      exact hG.disj.sublist (List.filter_sublist _)
  exact List.nodup_iff_count_le_one.mp hnodup f

/-- Witness for C4: file 0 is moved at most once. -/
theorem move_relocates_at_most_once_witness :
    ([2, 0, 1] : List Nat).Nodup ∧
    (movedFiles (findDuplicates
        (fun a b => if (a, b) ∈ [((0 : Nat), (1 : Nat)), (1, 0)] then 1 else 0)
        1 [2, 0, 1])).count 0 ≤ 1 :=
  ⟨by decide,
    move_relocates_at_most_once
      (fun a b => if (a, b) ∈ [((0 : Nat), (1 : Nat)), (1, 0)] then 1 else 0)
      1 [2, 0, 1] 0 (by decide)⟩

end Taggy
